import Mathlib

/-!
Shallow embedding of the strategy execution engine of the
uptime_ml_process_optimization repository
(src/task/math_optimizer/strategy/), together with theorems settling the
spec claims.  Numeric values are modelled as rationals; Python `None` is
modelled as `Option.none`; a raised Python exception is modelled as
`Except.error`.
-/

namespace ProcOpt

/-- Modelled from the spec: the file variable.py (class Variable) is not
present under src/; its fields follow spec section 3 (Data Model) and the
attribute accesses visible in data_context.py and the skill files:
var_id, var_type, current_value, dof_value, recommended_value,
min_hard_limit, max_hard_limit, threshold.  Values that Python leaves as
None are Option.none. -/
structure Variable where
  var_id : String
  var_type : String
  current_value : Option ℚ := none
  dof_value : Option ℚ := none
  recommended_value : Option ℚ := none
  min_hard_limit : ℚ := 0
  max_hard_limit : ℚ := 0
  threshold : Option ℚ := none
deriving Repr, DecidableEq

/-- Descriptor of one assembled solver constraint: the data captured by the
closure built in constraints.py lines 48-74 (SciPyNonlinearConstraint over
the two-sided window [op_min, op_max] for the predicted variable). -/
structure SolverConstraint where
  pred_var_id : String
  op_min : ℚ
  op_max : ℚ
deriving Repr, DecidableEq

/-- Lookup in an association list keyed by variable id (Python dict read). -/
def findVar : List (String × Variable) → String → Option Variable
  | [], _ => none
  | p :: rest, v => if p.1 = v then some p.2 else findVar rest v

/-- Replacement of the entry stored under an id (Python mutates the object
held in the dict; the key set never changes). -/
def setVarList (l : List (String × Variable)) (v : String) (var : Variable) :
    List (String × Variable) :=
  l.map (fun p => if p.1 = v then (v, var) else p)

/-- data_context.py class DataContext: mapping var id -> Variable (fixed key
set; Python attribute _variables, here field vars), the tabular time-window
snapshot (column-wise), the dynamic-bounds map, and the assembled solver
constraints.  Mappings are association lists keyed by id. -/
structure DataContext where
  vars : List (String × Variable)
  df : List (String × List ℚ) := []
  dynamic_bounds : List (String × (ℚ × ℚ)) := []
  solver_constraints : List SolverConstraint := []
deriving Repr, DecidableEq

/-- Lookup of a variable by id (Python: self._variables dict access). -/
def DataContext.find (ctx : DataContext) (v : String) : Option Variable :=
  findVar ctx.vars v

/-- data_context.py lines 17-20, DataContext.get_variable: raises KeyError
when the id is outside the schema fixed at construction. -/
def DataContext.get_variable (ctx : DataContext) (v : String) : Except String Variable :=
  match ctx.find v with
  | some var => .ok var
  | none => .error ("Variable " ++ v ++ " not found in DataContext.")

/-- data_context.py lines 22-23, DataContext.has_variable. -/
def DataContext.has_variable (ctx : DataContext) (v : String) : Bool :=
  (ctx.find v).isSome

/-- In-place mutation of the Variable stored under an id. -/
def DataContext.setVar (ctx : DataContext) (v : String) (var : Variable) : DataContext :=
  { ctx with vars := setVarList ctx.vars v var }

theorem findVar_setVarList_self (l : List (String × Variable)) (v : String) (var : Variable)
    (h : (findVar l v).isSome = true) : findVar (setVarList l v var) v = some var := by
  induction l with
  | nil => simp [findVar] at h
  | cons p rest ih =>
    by_cases hp : p.1 = v
    · simp [findVar, setVarList, hp]
    · simp only [findVar, setVarList, List.map_cons, if_neg hp] at h ⊢
      exact ih h

theorem findVar_setVarList_other (l : List (String × Variable)) (v w : String) (var : Variable)
    (h : w ≠ v) : findVar (setVarList l v var) w = findVar l w := by
  induction l with
  | nil => simp [findVar, setVarList]
  | cons p rest ih =>
    by_cases hp : p.1 = v
    · have hpw : ¬ ((v, var).1 = w) := fun hc => h hc.symm
      have hpw2 : ¬ (p.1 = w) := by rw [hp]; exact fun hc => h hc.symm
      simp only [setVarList, List.map_cons, if_pos hp, findVar, hpw, hpw2, if_false, if_neg hpw,
        if_neg hpw2]
      exact ih
    · simp only [setVarList, List.map_cons, if_neg hp, findVar]
      by_cases hw : p.1 = w
      · simp [hw]
      · simp only [if_neg hw]
        exact ih

theorem findVar_setVarList_none (l : List (String × Variable)) (v : String) (var : Variable)
    (h : findVar l v = none) : findVar (setVarList l v var) v = none := by
  induction l with
  | nil => simp [findVar, setVarList]
  | cons p rest ih =>
    by_cases hp : p.1 = v
    · simp [findVar, hp] at h
    · simp only [findVar, setVarList, List.map_cons, if_neg hp] at h ⊢
      exact ih h

theorem DataContext.find_setVar_self (ctx : DataContext) (v : String) (var : Variable)
    (h : ctx.has_variable v = true) : (ctx.setVar v var).find v = some var :=
  findVar_setVarList_self ctx.vars v var h

theorem DataContext.find_setVar_other (ctx : DataContext) (v w : String) (var : Variable)
    (h : w ≠ v) : (ctx.setVar v var).find w = ctx.find w :=
  findVar_setVarList_other ctx.vars v w var h

theorem DataContext.has_variable_setVar (ctx : DataContext) (v w : String) (var : Variable) :
    (ctx.setVar v var).has_variable w = ctx.has_variable w := by
  by_cases hw : w = v
  · subst hw
    unfold DataContext.has_variable
    cases hf : ctx.find w with
    | some x =>
      rw [DataContext.find_setVar_self ctx w var (by simp [DataContext.has_variable, hf])]
      rfl
    | none =>
      rw [show (ctx.setVar w var).find w = none from findVar_setVarList_none ctx.vars w var hf]
  · unfold DataContext.has_variable
    rw [DataContext.find_setVar_other ctx v w var hw]

/-! ## BoundsBuilderSkill (bounds.py) -/

/-- bounds.py lines 18-33, the window derived for one variable:
threshold defaults to 0 when None (getattr ... or 0.0), current to 0 when
None; [max(min_hard_limit, current − threshold),
min(max_hard_limit, current + threshold)], replaced by the sorted hard
limits when inverted. -/
def boundsFor (var : Variable) : ℚ × ℚ :=
  let threshold := var.threshold.getD 0
  let current := var.current_value.getD 0
  let mn := max var.min_hard_limit (current - threshold)
  let mx := min var.max_hard_limit (current + threshold)
  if mn > mx then
    (min var.min_hard_limit var.max_hard_limit, max var.min_hard_limit var.max_hard_limit)
  else (mn, mx)

/-- bounds.py lines 14-35, BoundsBuilderSkill.execute: builds the bounds map
over the skill inputs, skipping ids missing from the context, and fully
replaces the dynamic-bounds store. -/
def BoundsBuilderSkill.execute (inputs : List String) (ctx : DataContext) : DataContext :=
  { ctx with dynamic_bounds :=
      inputs.filterMap (fun w => (ctx.find w).map (fun x => (w, boundsFor x))) }

theorem lookup_bounds_map (inputs : List String) (ctx : DataContext) (v : String)
    (var : Variable) (hv : ctx.find v = some var) (hmem : v ∈ inputs) :
    (inputs.filterMap (fun w => (ctx.find w).map (fun x => (w, boundsFor x)))).lookup v
      = some (boundsFor var) := by
  induction inputs with
  | nil => cases hmem
  | cons w rest ih =>
    simp only [List.filterMap_cons]
    by_cases hw : w = v
    · subst hw
      rw [hv]
      simp [List.lookup]
    · have hrest : v ∈ rest := by
        cases hmem with
        | head => exact absurd rfl hw
        | tail _ h => exact h
      cases hcw : ctx.find w with
      | none => exact ih hrest
      | some x =>
        have hbeq : (v == w) = false := by
          simp only [beq_eq_false_iff_ne, ne_eq]
          exact fun hvw => hw hvw.symm
        show List.lookup v ((w, boundsFor x) ::
            List.filterMap (fun w => Option.map (fun x => (w, boundsFor x)) (ctx.find w)) rest)
          = some (boundsFor var)
        simp only [List.lookup, hbeq]
        exact ih hrest

/-- C6: after BoundsBuilderSkill.execute runs, every input variable present
in the context has a stored bound equal to
[max(min_hard_limit, current − threshold), min(max_hard_limit, current +
threshold)], replaced by the sorted hard limits when that window is
inverted; and, under the configuration invariant min_hard_limit ≤
max_hard_limit (spec section 3), hard_min ≤ derived_min ≤ derived_max ≤
hard_max holds. -/
theorem c6_bounds_builder_window_and_invariant (inputs : List String) (ctx : DataContext)
    (v : String) (var : Variable) (hv : ctx.find v = some var) (hmem : v ∈ inputs)
    (hhard : var.min_hard_limit ≤ var.max_hard_limit) :
    ∃ b : ℚ × ℚ,
      (BoundsBuilderSkill.execute inputs ctx).dynamic_bounds.lookup v = some b ∧
      b = (let c := var.current_value.getD 0
           let t := var.threshold.getD 0
           let mn := max var.min_hard_limit (c - t)
           let mx := min var.max_hard_limit (c + t)
           if mn > mx then
             (min var.min_hard_limit var.max_hard_limit,
              max var.min_hard_limit var.max_hard_limit)
           else (mn, mx)) ∧
      var.min_hard_limit ≤ b.1 ∧ b.1 ≤ b.2 ∧ b.2 ≤ var.max_hard_limit := by
  refine ⟨boundsFor var, ?_, rfl, ?_⟩
  · exact lookup_bounds_map inputs ctx v var hv hmem
  · unfold boundsFor
    set c := var.current_value.getD 0 with hc
    set t := var.threshold.getD 0 with ht
    by_cases hinv : max var.min_hard_limit (c - t) > min var.max_hard_limit (c + t)
    · rw [if_pos hinv]
      refine ⟨?_, ?_, ?_⟩ <;> simp [min_le_iff, le_max_iff, le_refl, hhard]
    · rw [if_neg hinv]
      push_neg at hinv
      exact ⟨le_max_left _ _, hinv, min_le_left _ _⟩

/-- Concrete Operative variable used by witnesses: hard limits [0, 100],
current 50, threshold 10. -/
def varX : Variable :=
  { var_id := "x", var_type := "Operative", current_value := some 50,
    dof_value := some 50, min_hard_limit := 0, max_hard_limit := 100,
    threshold := some 10 }

/-- Concrete one-variable context used by witnesses. -/
def ctxX : DataContext := { vars := [("x", varX)] }

/-- Witness for C6 at a concrete input: variable with hard limits [0, 100],
current 50, threshold 10 gives a stored bound satisfying the window formula
and the invariant chain. -/
theorem c6_witness :
    ∃ b : ℚ × ℚ,
      (BoundsBuilderSkill.execute ["x"] ctxX).dynamic_bounds.lookup "x" = some b ∧
      b = (let c := varX.current_value.getD 0
           let t := varX.threshold.getD 0
           let mn := max varX.min_hard_limit (c - t)
           let mx := min varX.max_hard_limit (c + t)
           if mn > mx then
             (min varX.min_hard_limit varX.max_hard_limit,
              max varX.min_hard_limit varX.max_hard_limit)
           else (mn, mx)) ∧
      varX.min_hard_limit ≤ b.1 ∧ b.1 ≤ b.2 ∧ b.2 ≤ varX.max_hard_limit :=
  c6_bounds_builder_window_and_invariant ["x"] ctxX "x" varX (by rfl) (by simp) (by decide)

/-! ## DataContext.get_variable (C10) -/

/-- C10: DataContext.get_variable returns the Variable exactly when the id
belongs to the schema fixed at construction (has_variable true), and raises
KeyError for every id outside that schema, so unguarded callers propagate a
cycle-level error on an unknown id. -/
theorem c10_get_variable_iff_schema (ctx : DataContext) (v : String) :
    (ctx.has_variable v = true → ∃ var, ctx.find v = some var ∧
        ctx.get_variable v = .ok var)
    ∧ (ctx.has_variable v = false →
        ctx.get_variable v = .error ("Variable " ++ v ++ " not found in DataContext.")) := by
  constructor
  · intro h
    unfold DataContext.has_variable at h
    cases hf : ctx.find v with
    | none => rw [hf] at h; simp at h
    | some var =>
      exact ⟨var, rfl, by unfold DataContext.get_variable; rw [hf]⟩
  · intro h
    unfold DataContext.has_variable at h
    cases hf : ctx.find v with
    | none => unfold DataContext.get_variable; rw [hf]
    | some var => rw [hf] at h; simp at h

/-- Witness for C10 at a concrete input: the one-variable schema ctxX. -/
theorem c10_witness :
    (ctxX.has_variable "y" = true → ∃ var, ctxX.find "y" = some var ∧
        ctxX.get_variable "y" = .ok var)
    ∧ (ctxX.has_variable "y" = false →
        ctxX.get_variable "y"
          = .error ("Variable " ++ "y" ++ " not found in DataContext.")) :=
  c10_get_variable_iff_schema ctxX "y"

/-! ## OptimizationSkill (optimizer.py) -/

/-- optimizer.py lines 58-94, the starting point and bound computed for one
optimizable input: a None current_value is replaced by 0.0, a missing or
None threshold by 1.0; the window [max(min_hard_limit, current − threshold),
min(max_hard_limit, current + threshold)] falls back first to the raw hard
limits and then, when those are also inverted or equal, to
[current − threshold, current + threshold].  Returns (x0 entry, bound). -/
def optimizerVarPrep (var : Variable) : ℚ × (ℚ × ℚ) :=
  let current := var.current_value.getD 0
  let threshold := var.threshold.getD 1
  let min_bound := max var.min_hard_limit (current - threshold)
  let max_bound := min var.max_hard_limit (current + threshold)
  if min_bound > max_bound then
    if var.min_hard_limit ≥ var.max_hard_limit then
      (current, (current - threshold, current + threshold))
    else
      (current, (var.min_hard_limit, var.max_hard_limit))
  else
    (current, (min_bound, max_bound))

/-- optimizer.py lines 54-96, the x0/bounds preparation loop over the
optimizable inputs.  It reads only each Variable's own fields through
get_variable (KeyError when an id is outside the schema); the context's
dynamic-bounds store is never consulted anywhere in OptimizationSkill. -/
def optimizerPrepAux : List String → DataContext → Except String (List (ℚ × (ℚ × ℚ)))
  | [], _ => .ok []
  | v :: rest, ctx => do
    let var ← ctx.get_variable v
    let tail ← optimizerPrepAux rest ctx
    .ok (optimizerVarPrep var :: tail)

/-- The pair (x0, bounds) assembled by optimizer.py lines 54-96. -/
def optimizerPrep (inputs : List String) (ctx : DataContext) :
    Except String (List ℚ × List (ℚ × ℚ)) :=
  (optimizerPrepAux inputs ctx).map (fun l => (l.map (fun p => p.1), l.map (fun p => p.2)))

theorem optimizerPrepAux_eq_of_has (inputs : List String) (ctx : DataContext)
    (h : ∀ v ∈ inputs, ctx.has_variable v = true) :
    optimizerPrepAux inputs ctx
      = .ok (inputs.filterMap (fun v => (ctx.find v).map optimizerVarPrep)) := by
  induction inputs with
  | nil => rfl
  | cons v rest ih =>
    have hv := h v (List.mem_cons_self v rest)
    unfold DataContext.has_variable at hv
    cases hf : ctx.find v with
    | none => rw [hf] at hv; simp at hv
    | some var =>
      have hrest := ih (fun w hw => h w (List.mem_cons_of_mem v hw))
      simp only [optimizerPrepAux, DataContext.get_variable, hf, hrest, List.filterMap_cons,
        Option.map_some]
      rfl

/-- Mapping first components over the prepared list. -/
theorem filterMap_prep_fst (inputs : List String) (ctx : DataContext) :
    (inputs.filterMap (fun v => (ctx.find v).map optimizerVarPrep)).map (fun p => p.1)
      = inputs.filterMap (fun v => (ctx.find v).map (fun var => (optimizerVarPrep var).1)) := by
  induction inputs with
  | nil => rfl
  | cons v rest ih =>
    cases hf : ctx.find v with
    | none => simpa [List.filterMap_cons, hf] using ih
    | some var => simpa [List.filterMap_cons, hf] using ih

/-- Mapping second components over the prepared list. -/
theorem filterMap_prep_snd (inputs : List String) (ctx : DataContext) :
    (inputs.filterMap (fun v => (ctx.find v).map optimizerVarPrep)).map (fun p => p.2)
      = inputs.filterMap (fun v => (ctx.find v).map (fun var => (optimizerVarPrep var).2)) := by
  induction inputs with
  | nil => rfl
  | cons v rest ih =>
    cases hf : ctx.find v with
    | none => simpa [List.filterMap_cons, hf] using ih
    | some var => simpa [List.filterMap_cons, hf] using ih

/-- C1 amended: OptimizationSkill never reads the context's dynamic-bounds
map.  Its x0/bounds preparation succeeds — no MissingBoundsError, no error
of any kind — whenever every optimizable input id is in the schema,
whatever the dynamic-bounds store holds (including the empty map), and each
bound is recomputed inline from the Variable's own current value, threshold
and hard limits via optimizerVarPrep. -/
theorem c1_optimizer_ignores_dynamic_bounds (inputs : List String) (ctx : DataContext)
    (bmap : List (String × (ℚ × ℚ)))
    (h : ∀ v ∈ inputs, ctx.has_variable v = true) :
    optimizerPrep inputs { ctx with dynamic_bounds := bmap }
      = .ok (inputs.filterMap (fun v => (ctx.find v).map (fun var => (optimizerVarPrep var).1)),
             inputs.filterMap (fun v => (ctx.find v).map (fun var => (optimizerVarPrep var).2))) := by
  have hvars : ({ ctx with dynamic_bounds := bmap } : DataContext).find
      = ctx.find := rfl
  have hhas : ∀ v ∈ inputs,
      ({ ctx with dynamic_bounds := bmap } : DataContext).has_variable v = true := by
    intro v hv
    unfold DataContext.has_variable
    rw [hvars]
    exact h v hv
  unfold optimizerPrep
  rw [optimizerPrepAux_eq_of_has _ _ hhas, hvars]
  simp only [Except.map, filterMap_prep_fst inputs ctx, filterMap_prep_snd inputs ctx]

/-- C1 counterexample: with variable x (hard limits [0, 100], current 50,
threshold 10) in the schema but NO entry in the context's dynamic-bounds
map, the optimizer's preparation succeeds with the inline-recomputed bound
(40, 60) instead of failing with a MissingBoundsError: the claimed failure
never happens. -/
theorem c1_counterexample :
    ctxX.dynamic_bounds = [] ∧ optimizerPrep ["x"] ctxX = .ok ([50], [(40, 60)]) := by
  refine ⟨rfl, ?_⟩
  show (optimizerPrepAux ["x"] ctxX).map _ = _
  rw [show optimizerPrepAux ["x"] ctxX = .ok [optimizerVarPrep varX] from rfl]
  rw [show optimizerVarPrep varX = (50, (40, 60)) from by
    unfold optimizerVarPrep varX
    norm_num]
  rfl

/-- Witness for the C1 theorem at a concrete input. -/
theorem c1_witness :
    optimizerPrep ["x"] { ctxX with dynamic_bounds := [] }
      = .ok (["x"].filterMap (fun v => (ctxX.find v).map (fun var => (optimizerVarPrep var).1)),
             ["x"].filterMap (fun v => (ctxX.find v).map (fun var => (optimizerVarPrep var).2))) :=
  c1_optimizer_ignores_dynamic_bounds ["x"] ctxX [] (by decide)

/-! ## The optimizer's objective closure (C4) -/

/-- optimizer.py lines 42-43 (and 108-109): write each candidate value into
the corresponding Variable's dof value; KeyError when an id is outside the
schema. -/
def writeDofs : List (String × ℚ) → DataContext → Except String DataContext
  | [], ctx => .ok ctx
  | (v, value) :: rest, ctx => do
    let var ← ctx.get_variable v
    writeDofs rest (ctx.setVar v { var with dof_value := some value })

/-- optimizer.py lines 40-52, the objective closure: writes the candidate
vector into the optimizable inputs' dof values, runs the cost-skill chain
(abstracted here as a context transformer), then reads the cost variable —
get_variable raises KeyError when cost_feature_name is outside the schema —
and defaults only a None dof_value to 0.0. -/
def objective (optimizable_inputs : List String) (cost_skill : DataContext → DataContext)
    (cost_feature_name : String) (ctx : DataContext) (x : List ℚ) :
    Except String (ℚ × DataContext) := do
  let ctx1 ← writeDofs (optimizable_inputs.zip x) ctx
  let ctx2 := cost_skill ctx1
  let cost_var ← ctx2.get_variable cost_feature_name
  .ok (cost_var.dof_value.getD 0, ctx2)

/-- C4 amended: when the configured cost-feature id does not exist among the
context's variables, every objective evaluation raises KeyError (so the
cycle crashes rather than completing as a degenerate success); the 0.0
default applies only when the cost variable exists but its dof_value is
None. -/
theorem c4_objective_missing_cost_feature (optimizable_inputs : List String) (x : List ℚ)
    (ctx ctx1 : DataContext) (cost_skill : DataContext → DataContext) (cfn : String)
    (hw : writeDofs (optimizable_inputs.zip x) ctx = .ok ctx1) :
    ((cost_skill ctx1).has_variable cfn = false →
      objective optimizable_inputs cost_skill cfn ctx x
        = .error ("Variable " ++ cfn ++ " not found in DataContext."))
    ∧ (∀ var, (cost_skill ctx1).find cfn = some var → var.dof_value = none →
      objective optimizable_inputs cost_skill cfn ctx x = .ok (0, cost_skill ctx1)) := by
  constructor
  · intro h
    unfold objective
    rw [hw]
    show ((cost_skill ctx1).get_variable cfn).bind _ = _
    unfold DataContext.has_variable at h
    cases hf : (cost_skill ctx1).find cfn with
    | some var => rw [hf] at h; simp at h
    | none =>
      unfold DataContext.get_variable
      rw [hf]
      rfl
  · intro var hf hdof
    unfold objective
    rw [hw]
    show ((cost_skill ctx1).get_variable cfn).bind _ = _
    unfold DataContext.get_variable
    rw [hf]
    show Except.ok (var.dof_value.getD 0, cost_skill ctx1) = _
    rw [hdof]
    rfl

/-- The identity cost skill, used by concrete counterexamples. -/
def idSkill : DataContext → DataContext := fun c => c

/-- C4 counterexample: cost-feature id cost absent from the one-variable
schema; the objective evaluation raises KeyError instead of returning the
default 0.0, so the cycle crashes rather than converging trivially. -/
theorem c4_counterexample :
    objective ["x"] idSkill "cost" ctxX [50]
      = .error ("Variable " ++ "cost" ++ " not found in DataContext.") := by rfl

/-- The context ctxX after the candidate 50 is written into the dof value of
x (used by witnesses). -/
def ctxX50 : DataContext := { vars := [("x", { varX with dof_value := some 50 })] }

/-- Witness for the C4 theorem at a concrete input. -/
theorem c4_witness :
    ((idSkill ctxX50).has_variable "cost" = false →
      objective ["x"] idSkill "cost" ctxX [50]
        = .error ("Variable " ++ "cost" ++ " not found in DataContext."))
    ∧ (∀ var, (idSkill ctxX50).find "cost" = some var → var.dof_value = none →
      objective ["x"] idSkill "cost" ctxX [50] = .ok (0, idSkill ctxX50)) :=
  c4_objective_missing_cost_feature ["x"] [50] ctxX ctxX50 idSkill "cost" (by rfl)

/-! ## The optimizer's result write-back (C7) -/

/-- The outcome reported by the scipy solver call (result.success,
result.x, result.message). -/
structure SolverResult where
  success : Bool
  x : List ℚ
  message : String
deriving Repr, DecidableEq

/-- optimizer.py lines 218-221: write one optimal component into the
variable's recommended_value and dof_value (KeyError if the id is outside
the schema). -/
def writeRecommended : List (String × ℚ) → DataContext → Except String DataContext
  | [], ctx => .ok ctx
  | (v, value) :: rest, ctx => do
    let var ← ctx.get_variable v
    writeRecommended rest
      (ctx.setVar v { var with recommended_value := some value, dof_value := some value })

/-- optimizer.py lines 212-224: on solver success, write the optimal vector
back into each optimizable variable's recommended_value and dof_value;
otherwise raise RuntimeError without writing anything. -/
def storeOptimalValues (optimizable_inputs : List String) (result : SolverResult)
    (ctx : DataContext) : Except String DataContext :=
  if result.success then
    writeRecommended (optimizable_inputs.zip result.x) ctx
  else
    .error ("Optimization failed: " ++ result.message)

theorem writeRecommended_spec (pairs : List (String × ℚ)) (ctx : DataContext)
    (hnodup : (pairs.map (fun p => p.1)).Nodup)
    (hhas : ∀ p ∈ pairs, ctx.has_variable p.1 = true) :
    ∃ ctx2, writeRecommended pairs ctx = .ok ctx2 ∧
      (∀ p ∈ pairs, ∃ var, ctx.find p.1 = some var ∧
        ctx2.find p.1
          = some { var with recommended_value := some p.2, dof_value := some p.2 }) ∧
      (∀ w, w ∉ pairs.map (fun p => p.1) → ctx2.find w = ctx.find w) := by
  induction pairs generalizing ctx with
  | nil => exact ⟨ctx, rfl, by simp, fun w _ => rfl⟩
  | cons q rest ih =>
    obtain ⟨v, value⟩ := q
    have hv := hhas (v, value) (List.mem_cons_self _ _)
    have hvf : ∃ var, ctx.find v = some var := by
      unfold DataContext.has_variable at hv
      cases hf : ctx.find v with
      | none => rw [hf] at hv; simp at hv
      | some var => exact ⟨var, rfl⟩
    obtain ⟨var, hvar⟩ := hvf
    set var2 : Variable := { var with recommended_value := some value, dof_value := some value }
      with hvar2
    set ctx1 := ctx.setVar v var2 with hctx1
    have hnotin : v ∉ rest.map (fun p => p.1) := by
      simp only [List.map_cons, List.nodup_cons] at hnodup
      exact hnodup.1
    have hrestnodup : (rest.map (fun p => p.1)).Nodup := by
      simp only [List.map_cons, List.nodup_cons] at hnodup
      exact hnodup.2
    have hresthas : ∀ p ∈ rest, ctx1.has_variable p.1 = true := by
      intro p hp
      rw [hctx1, DataContext.has_variable_setVar]
      exact hhas p (List.mem_cons_of_mem _ hp)
    obtain ⟨ctx2, hrun, hwrites, hframe⟩ := ih ctx1 hrestnodup hresthas
    refine ⟨ctx2, ?_, ?_, ?_⟩
    · show (ctx.get_variable v).bind _ = .ok ctx2
      unfold DataContext.get_variable
      rw [hvar]
      exact hrun
    · intro p hp
      cases hp with
      | head =>
        refine ⟨var, hvar, ?_⟩
        rw [hframe v hnotin, hctx1, DataContext.find_setVar_self ctx v var2 hv]
      | tail _ hp2 =>
        obtain ⟨var1, hvar1, hvar1w⟩ := hwrites p hp2
        have hne : p.1 ≠ v := by
          intro hc
          exact hnotin (hc ▸ List.mem_map_of_mem (fun p => p.1) hp2)
        refine ⟨var1, ?_, hvar1w⟩
        rw [← hvar1, hctx1, DataContext.find_setVar_other ctx v p.1 var2 hne]
    · intro w hw
      have hw1 : w ∉ rest.map (fun p => p.1) := by
        intro hc
        exact hw (List.mem_cons_of_mem _ hc)
      have hw2 : w ≠ v := by
        intro hc
        exact hw (hc ▸ List.mem_cons_self _ _)
      rw [hframe w hw1, hctx1, DataContext.find_setVar_other ctx v w var2 hw2]

theorem map_fst_zip_sublist : ∀ (l : List String) (x : List ℚ),
    List.Sublist ((l.zip x).map (fun p => p.1)) l
  | [], _ => by simp
  | _ :: _, [] => by simp
  | a :: l, b :: x => by
    simp only [List.zip_cons_cons, List.map_cons]
    exact (map_fst_zip_sublist l x).cons₂ a

/-- C7: when the solver reports success, OptimizationSkill writes each
component of the optimal vector into the corresponding optimizable
variable's recommended_value and dof_value; when it reports
non-convergence, the skill raises a fatal RuntimeError and no context (and
so no recommended_value) is produced. -/
theorem c7_store_success_or_fatal (optimizable_inputs : List String) (result : SolverResult)
    (ctx : DataContext) (hnodup : optimizable_inputs.Nodup)
    (hhas : ∀ v ∈ optimizable_inputs, ctx.has_variable v = true) :
    (result.success = false →
      storeOptimalValues optimizable_inputs result ctx
        = .error ("Optimization failed: " ++ result.message))
    ∧ (result.success = true → ∃ ctx2,
        storeOptimalValues optimizable_inputs result ctx = .ok ctx2 ∧
        ∀ p ∈ optimizable_inputs.zip result.x, ∃ var, ctx.find p.1 = some var ∧
          ctx2.find p.1
            = some { var with recommended_value := some p.2, dof_value := some p.2 }) := by
  constructor
  · intro h
    unfold storeOptimalValues
    rw [h]
    rfl
  · intro h
    have hz : ((optimizable_inputs.zip result.x).map (fun p => p.1)).Nodup :=
      hnodup.sublist (map_fst_zip_sublist optimizable_inputs result.x)
    have hzh : ∀ p ∈ optimizable_inputs.zip result.x, ctx.has_variable p.1 = true := by
      intro p hp
      obtain ⟨p1, p2⟩ := p
      exact hhas p1 (List.of_mem_zip hp).1
    obtain ⟨ctx2, hrun, hwrites, _⟩ := writeRecommended_spec _ ctx hz hzh
    refine ⟨ctx2, ?_, hwrites⟩
    unfold storeOptimalValues
    rw [h]
    exact hrun

/-- Witness for the C7 theorem at a concrete input: success writes (60, 60)
into x; failure raises. -/
theorem c7_witness :
    (({ success := true, x := [60], message := "" } : SolverResult).success = false →
      storeOptimalValues ["x"] { success := true, x := [60], message := "" } ctxX
        = .error ("Optimization failed: "
            ++ ({ success := true, x := [60], message := "" } : SolverResult).message))
    ∧ (({ success := true, x := [60], message := "" } : SolverResult).success = true →
      ∃ ctx2, storeOptimalValues ["x"] { success := true, x := [60], message := "" } ctxX
          = .ok ctx2 ∧
        ∀ p ∈ ["x"].zip ({ success := true, x := [60], message := "" } : SolverResult).x,
          ∃ var, ctxX.find p.1 = some var ∧
            ctx2.find p.1
              = some { var with recommended_value := some p.2, dof_value := some p.2 }) :=
  c7_store_success_or_fatal ["x"] { success := true, x := [60], message := "" } ctxX
    (by decide) (by decide)

/-! ## Strategy configuration and variable-lifecycle bookkeeping
(strategy.py) -/

/-- One entry of a ConstraintSkill template (constraints.py): a Python dict
whose required keys may be absent. -/
structure TemplateEntry where
  predicted_var : Option String := none
  op_min : Option ℚ := none
  op_max : Option ℚ := none
deriving Repr, DecidableEq

/-- The per-skill configuration document (strategy.py skills_config values):
the class name plus the declared inputs/outputs, and the class-specific
config fields used by the claims (Constraint template, OptimizationSkill
cost_skill_name / cost_feature_name). -/
structure SkillConfig where
  klass : String
  inputs : List String := []
  outputs : List String := []
  template : Option (List TemplateEntry) := none
  cost_skill_name : String := ""
  cost_feature_name : String := ""
deriving Repr, DecidableEq

/-- One task of the configuration: a name and an ordered skill sequence. -/
structure StrategyTaskCfg where
  name : String
  skill_sequence : List String
deriving Repr, DecidableEq

/-- The three configuration sections held by OptimizationStrategy
(strategy.py lines 36-38).  Of each variable's config only the type field
is consulted by the id-set functions, so variables_config maps id to its
type string. -/
structure StrategyCfg where
  variables_config : List (String × String)
  skills_config : List (String × SkillConfig)
  tasks_config : List StrategyTaskCfg
deriving Repr, DecidableEq

/-- strategy.py lines 68-73, get_operative_variable_ids. -/
def get_operative_variable_ids (s : StrategyCfg) : List String :=
  (s.variables_config.filter (fun p => p.2 = "Operative")).map (fun p => p.1)

/-- strategy.py lines 75-80, get_calculated_variable_ids. -/
def get_calculated_variable_ids (s : StrategyCfg) : List String :=
  (s.variables_config.filter (fun p => p.2 = "Calculated")).map (fun p => p.1)

/-- strategy.py lines 122-145, get_fixed_input_variable_ids: all inputs of
every skill of the PreCalculateVariables task (Python collects them in a
set; here a list with the same membership). -/
def get_fixed_input_variable_ids (s : StrategyCfg) : List String :=
  match s.tasks_config.find? (fun t => t.name = "PreCalculateVariables") with
  | none => []
  | some t =>
    (t.skill_sequence.filterMap (fun n =>
        (s.skills_config.find? (fun p => p.1 = n)).map (fun p => p.2))).flatMap
      (fun cfg => cfg.inputs)

/-- strategy.py lines 110-120, get_optimizable_variable_ids: the Calculated
ids plus the Operative ids not fixed as pre-calculation inputs (Python
builds the second part with set difference; here a filter with the same
membership). -/
def get_optimizable_variable_ids (s : StrategyCfg) : List String :=
  get_calculated_variable_ids s
    ++ (get_operative_variable_ids s).filter
        (fun v => decide (v ∉ get_fixed_input_variable_ids s))

/-- C5 amended: the optimizable-id set equals, as a set,
calculated ∪ (operative − precalc-input ids); but full disjointness from the
fixed/informative-after-precalc ids fails in general — the overlap is
exactly contained in the Calculated ids, so disjointness holds only for
Operative variables (a Calculated variable consumed as a precalc input lies
in both sets, see the counterexample). -/
theorem c5_optimizable_set_partition (s : StrategyCfg) (v : String) :
    (v ∈ get_optimizable_variable_ids s ↔
      v ∈ get_calculated_variable_ids s ∨
        (v ∈ get_operative_variable_ids s ∧ v ∉ get_fixed_input_variable_ids s))
    ∧ (v ∈ get_optimizable_variable_ids s → v ∈ get_fixed_input_variable_ids s →
        v ∈ get_calculated_variable_ids s) := by
  constructor
  · unfold get_optimizable_variable_ids
    simp [List.mem_filter]
  · intro hopt hfix
    unfold get_optimizable_variable_ids at hopt
    rcases List.mem_append.mp hopt with hc | ho
    · exact hc
    · rw [List.mem_filter] at ho
      have := ho.2
      simp only [decide_eq_true_eq] at this
      exact absurd hfix this

/-- The configuration used by the C5 counterexample: one Calculated variable
calc1 that is itself an input of a skill in the PreCalculateVariables task
(a chained pre-calculation). -/
def cfgC5 : StrategyCfg :=
  { variables_config := [("calc1", "Calculated"), ("calc2", "Calculated")],
    skills_config := [("chain", { klass := "MathFunction", inputs := ["calc1"],
                                  outputs := ["calc2"] })],
    tasks_config := [{ name := "PreCalculateVariables", skill_sequence := ["chain"] }] }

/-- C5 counterexample: in cfgC5 the id calc1 is in the optimizable set AND
in the fixed/informative-after-precalc set, so the claimed disjointness is
false. -/
theorem c5_counterexample :
    "calc1" ∈ get_optimizable_variable_ids cfgC5
      ∧ "calc1" ∈ get_fixed_input_variable_ids cfgC5 := by decide

/-- Witness for the C5 theorem at a concrete input. -/
theorem c5_witness :
    ("calc1" ∈ get_optimizable_variable_ids cfgC5 ↔
      "calc1" ∈ get_calculated_variable_ids cfgC5 ∨
        ("calc1" ∈ get_operative_variable_ids cfgC5 ∧
          "calc1" ∉ get_fixed_input_variable_ids cfgC5))
    ∧ ("calc1" ∈ get_optimizable_variable_ids cfgC5 →
        "calc1" ∈ get_fixed_input_variable_ids cfgC5 →
        "calc1" ∈ get_calculated_variable_ids cfgC5) :=
  c5_optimizable_set_partition cfgC5 "calc1"

/-! ## Skill construction (strategy.py _build_skills) and the constraint
builder (constraints.py) — C2 -/

/-- A skill object right after OptimizationStrategy._build_skills: its
class, declared inputs, the class-specific config it carries, and whether
set_strategy was called on it during construction (strategy.py lines 57-59
call it only on OptimizationSkill instances). -/
structure BuiltSkill where
  name : String
  klass : String
  inputs : List String := []
  template : Option (List TemplateEntry) := none
  cost_skill_name : String := ""
  strategy_set : Bool
deriving Repr, DecidableEq

/-- strategy.py lines 14-20, the keys of SKILL_CLASS_MAP. -/
def SKILL_CLASS_NAMES : List String :=
  ["InferenceModel", "MathFunction", "Constraint", "CompositionSkill", "OptimizationSkill"]

/-- strategy.py lines 42-66, _build_skills: instantiate each configured
skill in order (an unknown class name raises ValueError) and call
set_strategy exactly on the OptimizationSkill instances; the second pass
resolves CompositionSkill references and touches no other skill's strategy
reference. -/
def build_skills : List (String × SkillConfig) → Except String (List (String × BuiltSkill))
  | [] => .ok []
  | p :: rest =>
    if p.2.klass ∈ SKILL_CLASS_NAMES then do
      let tail ← build_skills rest
      .ok ((p.1, { name := p.1, klass := p.2.klass, inputs := p.2.inputs,
                   template := p.2.template, cost_skill_name := p.2.cost_skill_name,
                   strategy_set := decide (p.2.klass = "OptimizationSkill") }) :: tail)
    else
      .error ("Unknown skill class: " ++ p.2.klass)

/-- constraints.py lines 26-76, Constraints.execute: an absent or empty
template stores an empty constraint list; a template entry missing a
required key raises ValueError; otherwise constraints are assembled only
when the strategy back-reference was attached (self._strategy is not None)
AND an OptimizationSkill exists among the strategy's skills — one two-sided
constraint descriptor per template entry — and the assembled list (empty in
every other case) replaces the context's solver-constraint store. -/
def Constraints.execute : Option (List TemplateEntry) → Bool →
    List (String × BuiltSkill) → DataContext → Except String DataContext
  | none, _, _, ctx => .ok { ctx with solver_constraints := [] }
  | some tmpl, strategySet, strategy_skills, ctx =>
    if tmpl.isEmpty then .ok { ctx with solver_constraints := [] }
    else if tmpl.any (fun c => c.predicted_var.isNone || c.op_min.isNone || c.op_max.isNone)
    then
      .error "Constraints: template entry missing required keys"
    else
      let assembled :=
        if strategySet then
          if (strategy_skills.filter (fun p => p.2.klass == "OptimizationSkill")).isEmpty
          then []
          else
            tmpl.filterMap (fun c =>
              match c.predicted_var, c.op_min, c.op_max with
              | some pv, some mn, some mx =>
                some { pred_var_id := pv, op_min := mn, op_max := mx }
              | _, _, _ => none)
        else []
      .ok { ctx with solver_constraints := assembled }

/-- C2 amended: during Strategy construction the owning-Strategy
back-reference is injected ONLY into OptimizationSkill instances — for
every built skill, strategy_set holds exactly when its class is
OptimizationSkill — so the constraint-builder skill's reference stays
unset, and Constraints.execute with an unset strategy reference stores an
EMPTY solver-constraint list even for a non-empty valid template. -/
theorem c2_strategy_ref_only_optimizer (skills_config : List (String × SkillConfig))
    (skills : List (String × BuiltSkill))
    (h : build_skills skills_config = .ok skills) :
    (∀ p ∈ skills, p.2.strategy_set = decide (p.2.klass = "OptimizationSkill"))
    ∧ (∀ (tmpl : List TemplateEntry) (ss : List (String × BuiltSkill)) (ctx : DataContext),
        (∀ c ∈ tmpl, c.predicted_var.isSome ∧ c.op_min.isSome ∧ c.op_max.isSome) →
        Constraints.execute (some tmpl) false ss ctx
          = .ok { ctx with solver_constraints := [] }) := by
  constructor
  · induction skills_config generalizing skills with
    | nil =>
      cases h
      intro p hp
      cases hp
    | cons q rest ih =>
      unfold build_skills at h
      by_cases hq : q.2.klass ∈ SKILL_CLASS_NAMES
      · rw [if_pos hq] at h
        cases hrest : build_skills rest with
        | error e => rw [hrest] at h; cases h
        | ok tail =>
          rw [hrest] at h
          cases h
          intro p hp
          cases hp with
          | head => rfl
          | tail _ hp2 => exact ih tail hrest p hp2
      · rw [if_neg hq] at h
        cases h
  · intro tmpl ss ctx hvalid
    have hany : tmpl.any
        (fun c => c.predicted_var.isNone || c.op_min.isNone || c.op_max.isNone) = false := by
      rw [List.any_eq_false]
      intro c hc
      obtain ⟨h1, h2, h3⟩ := hvalid c hc
      obtain ⟨a, ha⟩ := Option.isSome_iff_exists.mp h1
      obtain ⟨b, hb⟩ := Option.isSome_iff_exists.mp h2
      obtain ⟨d, hd⟩ := Option.isSome_iff_exists.mp h3
      simp [ha, hb, hd]
    simp only [Constraints.execute, hany]
    by_cases he : tmpl.isEmpty
    · rw [if_pos he]
    · rw [if_neg he]
      rfl

/-- A non-empty, fully valid constraint template used by the C2 theorems. -/
def tmplC2 : List TemplateEntry :=
  [{ predicted_var := some "p", op_min := some 10, op_max := some 20 }]

/-- Skills configuration with an optimizer and a constraint builder. -/
def cfgC2 : List (String × SkillConfig) :=
  [("opt", { klass := "OptimizationSkill", inputs := ["x"],
             cost_skill_name := "cost_chain", cost_feature_name := "cost" }),
   ("con", { klass := "Constraint", template := some tmplC2 })]

/-- The optimizer skill as _build_skills creates it (strategy reference
attached). -/
def builtOpt : BuiltSkill :=
  { name := "opt", klass := "OptimizationSkill", inputs := ["x"],
    cost_skill_name := "cost_chain", strategy_set := true }

/-- The constraint skill as _build_skills creates it (strategy reference
NOT attached). -/
def builtCon : BuiltSkill :=
  { name := "con", klass := "Constraint", template := some tmplC2, strategy_set := false }

/-- C2 counterexample: _build_skills on cfgC2 leaves the constraint
builder's strategy reference unset, and its execute with the non-empty
valid template then stores an EMPTY solver-constraint list — the claimed
non-empty list (one constraint per template entry) is not produced. -/
theorem c2_counterexample :
    build_skills cfgC2 = .ok [("opt", builtOpt), ("con", builtCon)]
    ∧ builtCon.strategy_set = false
    ∧ builtCon.template = some tmplC2 ∧ tmplC2 ≠ []
    ∧ Constraints.execute builtCon.template builtCon.strategy_set
        [("opt", builtOpt), ("con", builtCon)] ctxX
        = .ok { ctxX with solver_constraints := [] } :=
  ⟨rfl, rfl, rfl, by decide, rfl⟩

/-- Witness for the C2 theorem at a concrete input. -/
theorem c2_witness :
    (∀ p ∈ [("opt", builtOpt), ("con", builtCon)],
        p.2.strategy_set = decide (p.2.klass = "OptimizationSkill"))
    ∧ (∀ (tmpl : List TemplateEntry) (ss : List (String × BuiltSkill)) (ctx : DataContext),
        (∀ c ∈ tmpl, c.predicted_var.isSome ∧ c.op_min.isSome ∧ c.op_max.isSome) →
        Constraints.execute (some tmpl) false ss ctx
          = .ok { ctx with solver_constraints := [] }) :=
  c2_strategy_ref_only_optimizer cfgC2 [("opt", builtOpt), ("con", builtCon)] (by rfl)

/-! ## InferenceModel (models.py) — C3, C8 -/

/-- A per-feature scaler held in the pickled scaler dict: transform and
inverse_transform, abstracted as rational maps. -/
structure ScalerEntry where
  transform : ℚ → ℚ
  inverse_transform : ℚ → ℚ

/-- One feature's lag/offset/variation configuration
(config.feature_engineering.lag_offset entries in models.py). -/
structure LagOffsetCfg where
  lag : Nat := 0
  offset : Nat := 0
  variation : Option String := none
deriving Repr, DecidableEq

/-- The state of an InferenceModel skill after construction (models.py
lines 43-63): declared inputs/outputs, the feature-engineering config
(smoothing method defaulting to mean, alpha to 0.7), and the loaded model
and scaler — None when artifact loading failed.  The trained network is
abstracted as a function from the scaled feature vector to its raw scalar
output. -/
structure InferenceModelState where
  inputs : List String
  outputs : List String
  lag_offset : List (String × LagOffsetCfg) := []
  smoothing_method : String := "mean"
  smoothing_alpha : ℚ := 7/10
  model : Option (List ℚ → ℚ) := none
  scaler : Option (List (String × ScalerEntry)) := none

/-- models.py: self.lag_offset.get(var_id, {}) — missing entries behave as
an empty dict whose fields read as defaults. -/
def lagOffsetFor (m : InferenceModelState) (v : String) : LagOffsetCfg :=
  match m.lag_offset.find? (fun p => p.1 = v) with
  | some p => p.2
  | none => {}

/-- models.py line 205-222: scaler keys are looked up under
input_id.replace(delta_ prefix, empty) — Python str.replace replaces every
occurrence. -/
def scalerIdOf (input_id : String) : String := input_id.replace "delta_" ""

/-- models.py line 171: the pandas slice df[var].iloc[-(lag+offset) : -lag]
on a column stored oldest-to-newest.  Python negative slicing clamps at 0,
and an index written -0 is 0, so lag = 0 always yields an empty slice. -/
def ilocSlice (l : List ℚ) (lag off : Nat) : List ℚ :=
  let n := l.length
  let start := if lag + off = 0 then 0 else n - (lag + off)
  let stop := if lag = 0 then 0 else n - lag
  (l.take stop).drop start

/-- models.py lines 176-179: Series.ewm(alpha, adjust := False).mean()
followed by .iloc[-1] — the recursively weighted mean, last value. -/
def ewmLast (alpha : ℚ) : List ℚ → ℚ
  | [] => 0
  | x :: xs => xs.foldl (fun acc xi => (1 - alpha) * acc + alpha * xi) x

/-- models.py lines 180-183: Series.mean() of a non-empty window. -/
def listMean (l : List ℚ) : ℚ := l.sum / l.length

/-- models.py lines 142-184, the per-input feature value: Delta inputs take
dof − current (a None operand raises TypeError, uncaught in execute);
Operative/Calculated take dof − current under Increment (same TypeError
risk) or the raw dof under Absolute (which may itself be None);
Informative takes dof − current under Increment or the smoothed window
statistic under Absolute; every other combination leaves the initial 0. -/
def computeInputValue (m : InferenceModelState) (ctx : DataContext) (var : Variable) :
    Except String (Option ℚ) :=
  if var.var_type = "Delta" then
    match var.dof_value, var.current_value with
    | some d, some c => .ok (some (d - c))
    | _, _ => .error "TypeError: unsupported operand type for None"
  else if var.var_type = "Operative" ∨ var.var_type = "Calculated" then
    match (lagOffsetFor m var.var_id).variation with
    | some s =>
      if s = "Increment" then
        match var.dof_value, var.current_value with
        | some d, some c => .ok (some (d - c))
        | _, _ => .error "TypeError: unsupported operand type for None"
      else if s = "Absolute" then .ok var.dof_value
      else .ok (some 0)
    | none => .ok (some 0)
  else if var.var_type = "Informative" then
    match (lagOffsetFor m var.var_id).variation with
    | some s =>
      if s = "Increment" then
        match var.dof_value, var.current_value with
        | some d, some c => .ok (some (d - c))
        | _, _ => .error "TypeError: unsupported operand type for None"
      else if s = "Absolute" then
        match ctx.df.find? (fun p => p.1 = var.var_id) with
        | none => .error "KeyError: column not found in dataframe"
        | some col =>
          let window := ilocSlice col.2 (lagOffsetFor m var.var_id).lag
            (lagOffsetFor m var.var_id).offset
          if window.isEmpty then .ok (some 0)
          else if m.smoothing_method = "ewm" then
            .ok (some (ewmLast m.smoothing_alpha window))
          else if m.smoothing_method = "mean" then .ok (some (listMean window))
          else .ok (some 0)
      else .ok (some 0)
    | none => .ok (some 0)
  else .ok (some 0)

/-- models.py lines 142-184, the input-gathering loop of execute: KeyError
when a declared input id is outside the schema. -/
def gatherInputValues (m : InferenceModelState) : List String → DataContext →
    Except String (List (Option ℚ))
  | [], _ => .ok []
  | v :: rest, ctx =>
    match ctx.get_variable v with
    | .error e => .error e
    | .ok var =>
      match computeInputValue m ctx var with
      | .error e => .error e
      | .ok val =>
        match gatherInputValues m rest ctx with
        | .error e => .error e
        | .ok tail => .ok (val :: tail)

/-- models.py lines 204-213: forward-scale each input value, passing raw
values through when no per-feature scaler exists. -/
def scaledInputs (m : InferenceModelState) (scaler : List (String × ScalerEntry))
    (input_values : List (Option ℚ)) : List ℚ :=
  (m.inputs.zip input_values).map (fun p =>
    match scaler.find? (fun q => q.1 = scalerIdOf p.1) with
    | some q => q.2.transform (p.2.getD 0)
    | none => p.2.getD 0)

/-- models.py lines 220-228: inverse-scale the raw model output when a
scaler entry exists for the output feature. -/
def inverseScaled (scaler : List (String × ScalerEntry)) (output_id : String) (q : ℚ) : ℚ :=
  match scaler.find? (fun p => p.1 = scalerIdOf output_id) with
  | some p => p.2.inverse_transform q
  | none => q

/-- models.py lines 197-237, _predict_with_nn: any None input value yields
0.0; otherwise the scaled inputs go through the network, the raw output is
inverse-scaled, and the final value is ALWAYS the output variable's
current value (0.0 when the variable or its value is missing — the KeyError
is caught by the bare except returning 0.0) plus the inverse-scaled raw
output; no variation configuration is consulted. -/
def predictWithNN (m : InferenceModelState) (model : List ℚ → ℚ)
    (scaler : List (String × ScalerEntry)) (input_values : List (Option ℚ))
    (ctx : DataContext) : ℚ :=
  if input_values.any (fun v => v.isNone) then 0
  else
    let diff0 := model (scaledInputs m scaler input_values)
    match m.outputs with
    | [] => 0
    | output_id :: _ =>
      match ctx.find output_id with
      | some var => var.current_value.getD 0 + inverseScaled scaler output_id diff0
      | none => 0

/-- models.py lines 186-190: run the network only when model and scaler are
both loaded, else fall back to 0.0. -/
def modelResult (m : InferenceModelState) (input_values : List (Option ℚ))
    (ctx : DataContext) : ℚ :=
  match m.model, m.scaler with
  | some model, some scaler => predictWithNN m model scaler input_values ctx
  | _, _ => 0

/-- models.py lines 139-195, InferenceModel.execute: gather the feature
values (KeyError for an input id outside the schema), run the network when
model and scaler are both loaded and 0.0 otherwise, and write the result
into the first declared output's dof value. -/
def InferenceModel.execute (m : InferenceModelState) (ctx : DataContext) :
    Except String DataContext :=
  match gatherInputValues m m.inputs ctx with
  | .error e => .error e
  | .ok input_values =>
    match m.outputs with
    | [] => .error "IndexError: list index out of range"
    | out :: _ =>
      match ctx.get_variable out with
      | .error e => .error e
      | .ok ovar =>
        .ok (ctx.setVar out { ovar with dof_value := some (modelResult m input_values ctx) })

/-- C3 amended: for every prediction made with a loaded model and scaler
and fully available input values, the final value is ALWAYS the output
variable's observed value plus the inverse-scaled raw model output —
whatever the configured variation (the lag_offset configuration does not
influence the prediction step at all); no configuration yields the raw
model output alone. -/
theorem c3_prediction_always_adds_observed (m : InferenceModelState)
    (model : List ℚ → ℚ) (scaler : List (String × ScalerEntry))
    (input_values : List (Option ℚ)) (ctx : DataContext)
    (out : String) (rest : List String) (var : Variable)
    (ho : m.outputs = out :: rest) (hv : ctx.find out = some var)
    (hn : input_values.any (fun v => v.isNone) = false) :
    (∀ lo, predictWithNN { m with lag_offset := lo } model scaler input_values ctx
        = predictWithNN m model scaler input_values ctx)
    ∧ predictWithNN m model scaler input_values ctx
        = var.current_value.getD 0
          + inverseScaled scaler out (model (scaledInputs m scaler input_values)) := by
  constructor
  · intro lo
    rfl
  · unfold predictWithNN
    rw [hn, ho]
    show (match ctx.find out with
      | some var => var.current_value.getD 0
          + inverseScaled scaler out (model (scaledInputs m scaler input_values))
      | none => 0) = _
    rw [hv]

/-- The Operative input variable of the concrete C3/C8 scenario. -/
def varA : Variable :=
  { var_id := "a", var_type := "Operative", current_value := some 1, dof_value := some 1 }

/-- The Predicted output variable of the concrete C3/C8 scenario, with
observed value 5. -/
def varP : Variable :=
  { var_id := "p", var_type := "Predicted", current_value := some 5, dof_value := some 0 }

/-- Concrete two-variable context for the inference scenarios. -/
def ctxAP : DataContext := { vars := [("a", varA), ("p", varP)] }

/-- Concrete inference skill whose output p is configured Absolute (NOT
Increment), with a loaded constant network returning 2 and a loaded scaler
dict with no per-feature entries. -/
def mC3 : InferenceModelState :=
  { inputs := ["a"], outputs := ["p"],
    lag_offset := [("a", { variation := some "Absolute" }),
                   ("p", { variation := some "Absolute" })],
    model := some (fun _ => 2), scaler := some [] }

/-- C3 counterexample: the output p is configured Absolute, its observed
value is 5 and the raw model output is 2, yet the written prediction is
7 = 5 + 2 rather than the raw output 2 the claim requires for non-Increment
configurations. -/
theorem c3_counterexample :
    (lagOffsetFor mC3 "p").variation = some "Absolute"
    ∧ varP.current_value = some 5
    ∧ (InferenceModel.execute mC3 ctxAP).toOption.bind
        (fun c => (c.find "p").map (fun v => v.dof_value)) = some (some 7)
    ∧ (7 : ℚ) = 5 + 2 ∧ (7 : ℚ) ≠ 2 := by
  refine ⟨rfl, rfl, ?_, by norm_num, by norm_num⟩
  rw [show InferenceModel.execute mC3 ctxAP
      = .ok (ctxAP.setVar "p" { varP with dof_value := some ((5 : ℚ) + 2) }) from rfl]
  rw [show ((5 : ℚ) + 2) = 7 from by norm_num]
  rfl

/-- Witness for the C3 theorem at a concrete input. -/
theorem c3_witness :
    (∀ lo, predictWithNN { mC3 with lag_offset := lo } (fun _ => 2) [] [some 1] ctxAP
        = predictWithNN mC3 (fun _ => 2) [] [some 1] ctxAP)
    ∧ predictWithNN mC3 (fun _ => 2) [] [some 1] ctxAP
        = varP.current_value.getD 0
          + inverseScaled [] "p" ((fun _ => (2 : ℚ)) (scaledInputs mC3 [] [some 1])) :=
  c3_prediction_always_adds_observed mC3 (fun _ => 2) [] [some 1] ctxAP "p" [] varP
    rfl rfl rfl

theorem gatherInputValues_ok_has (m : InferenceModelState) (inputs : List String)
    (ctx : DataContext) (ivs : List (Option ℚ))
    (h : gatherInputValues m inputs ctx = .ok ivs) :
    ∀ v ∈ inputs, ctx.has_variable v = true := by
  induction inputs generalizing ivs with
  | nil =>
    intro v hv
    cases hv
  | cons w rest ih =>
    intro v hv
    unfold gatherInputValues at h
    cases hw : ctx.get_variable w with
    | error e =>
      rw [hw] at h
      cases h
    | ok wvar =>
      rw [hw] at h
      have hwfind : ctx.find w = some wvar := by
        unfold DataContext.get_variable at hw
        cases hf : ctx.find w with
        | none => rw [hf] at hw; cases hw
        | some x => rw [hf] at hw; cases hw; rfl
      cases hv with
      | head =>
        unfold DataContext.has_variable
        rw [hwfind]
        rfl
      | tail _ hv2 =>
        have h2 : (match computeInputValue m ctx wvar with
            | Except.error e => (Except.error e : Except String (List (Option ℚ)))
            | Except.ok val =>
              match gatherInputValues m rest ctx with
              | Except.error e => Except.error e
              | Except.ok tail => Except.ok (val :: tail)) = Except.ok ivs := h
        cases hcv : computeInputValue m ctx wvar with
        | error e => rw [hcv] at h2; cases h2
        | ok val =>
          rw [hcv] at h2
          cases hrest : gatherInputValues m rest ctx with
          | error e => rw [hrest] at h2; cases h2
          | ok tail => exact ih tail hrest v hv2

/-- C8 amended: when the model or the scaler failed to load and every
declared input id exists in the schema with a computable feature value, the
skill writes the default 0.0 to its output variable and does not raise; but
an input variable id absent from the schema makes execute raise KeyError
and aborts the cycle. -/
theorem c8_inference_default_vs_missing_input (m : InferenceModelState) (ctx : DataContext)
    (out : String) (rest : List String) (ovar : Variable)
    (ho : m.outputs = out :: rest) (hov : ctx.find out = some ovar) :
    ((m.model.isNone = true ∨ m.scaler.isNone = true) →
      ∀ ivs, gatherInputValues m m.inputs ctx = .ok ivs →
      InferenceModel.execute m ctx = .ok (ctx.setVar out { ovar with dof_value := some 0 }))
    ∧ (∀ v ∈ m.inputs, ctx.has_variable v = false →
        ∃ msg, InferenceModel.execute m ctx = .error msg) := by
  constructor
  · intro hmod ivs hg
    have hgv : ctx.get_variable out = .ok ovar := by
      unfold DataContext.get_variable
      rw [hov]
    have hres : modelResult m ivs ctx = 0 := by
      unfold modelResult
      cases hm : m.model with
      | none => cases m.scaler <;> rfl
      | some f =>
        cases hs : m.scaler with
        | none => rfl
        | some s =>
          exfalso
          cases hmod with
          | inl h1 => rw [hm] at h1; cases h1
          | inr h2 => rw [hs] at h2; cases h2
    unfold InferenceModel.execute
    rw [hg, ho]
    show (match ctx.get_variable out with
      | Except.error e => (Except.error e : Except String DataContext)
      | Except.ok ovar2 =>
        Except.ok (ctx.setVar out
          { ovar2 with dof_value := some (modelResult m ivs ctx) })) = _
    rw [hgv]
    show Except.ok (ctx.setVar out { ovar with dof_value := some (modelResult m ivs ctx) }) = _
    rw [hres]
  · intro v hv hmiss
    cases hg : gatherInputValues m m.inputs ctx with
    | ok ivs =>
      exfalso
      have := gatherInputValues_ok_has m m.inputs ctx ivs hg v hv
      rw [hmiss] at this
      cases this
    | error msg =>
      refine ⟨msg, ?_⟩
      unfold InferenceModel.execute
      rw [hg]

/-- Concrete inference skill with unloaded artifacts and an input id that
is absent from the two-variable schema. -/
def mC8 : InferenceModelState :=
  { inputs := ["missing"], outputs := ["p"], model := none, scaler := none }

/-- C8 counterexample: an input variable id absent from the context's
schema makes InferenceModel.execute raise KeyError — it aborts instead of
writing the 0.0 default. -/
theorem c8_counterexample :
    "missing" ∈ mC8.inputs ∧ ctxAP.has_variable "missing" = false
    ∧ InferenceModel.execute mC8 ctxAP
        = .error ("Variable " ++ "missing" ++ " not found in DataContext.") :=
  ⟨by decide, by rfl, by rfl⟩

/-- Concrete inference skill with unloaded artifacts whose single input a
is present and computable (Absolute variation). -/
def mC8b : InferenceModelState :=
  { inputs := ["a"], outputs := ["p"],
    lag_offset := [("a", { variation := some "Absolute" })],
    model := none, scaler := none }

/-- Witness for the C8 theorem at a concrete input. -/
theorem c8_witness :
    ((mC8b.model.isNone = true ∨ mC8b.scaler.isNone = true) →
      ∀ ivs, gatherInputValues mC8b mC8b.inputs ctxAP = .ok ivs →
      InferenceModel.execute mC8b ctxAP
        = .ok (ctxAP.setVar "p" { varP with dof_value := some 0 }))
    ∧ (∀ v ∈ mC8b.inputs, ctxAP.has_variable v = false →
        ∃ msg, InferenceModel.execute mC8b ctxAP = .error msg) :=
  c8_inference_default_vs_missing_input mC8b ctxAP "p" [] varP rfl rfl

/-! ## MathFunction (functions.py) — C9 -/

/-- The symbol table the restricted expression evaluator sees: name to
bound value.  A threshold binding can be None (Python sets the symbol to
the raw attribute when it is not 0.0, and None != 0.0 holds). -/
abbrev SymTable := List (String × Option ℚ)

/-- functions.py lines 34-52: two bindings per input (candidate _dof and
observed _current, both defaulting None to 0.0), a _threshold binding when
the threshold is not 0.0, and the bare id bound to the candidate value;
get_variable raises KeyError for an input id outside the schema. -/
def buildSymtable : List String → DataContext → Except String SymTable
  | [], _ => .ok []
  | v :: rest, ctx =>
    match ctx.get_variable v with
    | .error e => .error e
    | .ok var =>
      match buildSymtable rest ctx with
      | .error e => .error e
      | .ok tail =>
        .ok (((v ++ "_dof", some (var.dof_value.getD 0))
          :: (v ++ "_current", some (var.current_value.getD 0))
          :: (if var.threshold ≠ some 0 then [(v ++ "_threshold", var.threshold)] else []))
          ++ ((v, some (var.dof_value.getD 0)) :: tail))

/-- functions.py lines 56-69: the evaluated result, with a caught
evaluation exception and a computed None both replaced by 0.0. -/
def evalResult (formula_eval : SymTable → Except String (Option ℚ)) (st : SymTable) : ℚ :=
  match formula_eval st with
  | .error _ => 0
  | .ok none => 0
  | .ok (some r) => r

/-- functions.py lines 33-74, MathFunction.execute: build the symbol table,
evaluate the formula through the sandboxed asteval interpreter (abstracted
as formula_eval; an evaluation exception is caught and a computed None both
fall back to the neutral 0.0 with a printed warning), then write the result
into the first declared output's dof value; with no declared outputs
nothing is written. -/
def MathFunction.execute (formula_eval : SymTable → Except String (Option ℚ))
    (inputs outputs : List String) (ctx : DataContext) : Except String DataContext :=
  match buildSymtable inputs ctx with
  | .error e => .error e
  | .ok symtable =>
    let result : ℚ := evalResult formula_eval symtable
    match outputs with
    | [] => .ok ctx
    | out :: _ =>
      match ctx.get_variable out with
      | .error e => .error e
      | .ok ovar => .ok (ctx.setVar out { ovar with dof_value := some result })

/-- C9: if expression evaluation fails, or produces no value (None),
MathFunction.execute writes the neutral default 0.0 into the first declared
output's dof value and returns normally (the condition is surfaced as a
warning, not an abort); on successful evaluation it writes the scalar
result into the first declared output's dof value. -/
theorem c9_expression_default_and_write
    (formula_eval : SymTable → Except String (Option ℚ))
    (inputs outputs : List String) (ctx : DataContext) (st : SymTable)
    (out : String) (rest : List String) (ovar : Variable)
    (hs : buildSymtable inputs ctx = .ok st)
    (ho : outputs = out :: rest) (hov : ctx.find out = some ovar) :
    ((∀ e, formula_eval st = .error e →
        MathFunction.execute formula_eval inputs outputs ctx
          = .ok (ctx.setVar out { ovar with dof_value := some 0 }))
    ∧ (formula_eval st = .ok none →
        MathFunction.execute formula_eval inputs outputs ctx
          = .ok (ctx.setVar out { ovar with dof_value := some 0 }))
    ∧ (∀ r, formula_eval st = .ok (some r) →
        MathFunction.execute formula_eval inputs outputs ctx
          = .ok (ctx.setVar out { ovar with dof_value := some r }))) := by
  have hgv : ctx.get_variable out = .ok ovar := by
    unfold DataContext.get_variable
    rw [hov]
  refine ⟨?_, ?_, ?_⟩
  · intro e he
    unfold MathFunction.execute
    rw [hs, ho]
    show (match ctx.get_variable out with
      | Except.error e => (Except.error e : Except String DataContext)
      | Except.ok ovar2 =>
        Except.ok (ctx.setVar out
          { ovar2 with dof_value := some (evalResult formula_eval st) })) = _
    rw [hgv]
    show Except.ok (ctx.setVar out
      { ovar with dof_value := some (evalResult formula_eval st) }) = _
    rw [show evalResult formula_eval st = 0 from by unfold evalResult; rw [he]]
  · intro he
    unfold MathFunction.execute
    rw [hs, ho]
    show (match ctx.get_variable out with
      | Except.error e => (Except.error e : Except String DataContext)
      | Except.ok ovar2 =>
        Except.ok (ctx.setVar out
          { ovar2 with dof_value := some (evalResult formula_eval st) })) = _
    rw [hgv]
    show Except.ok (ctx.setVar out
      { ovar with dof_value := some (evalResult formula_eval st) }) = _
    rw [show evalResult formula_eval st = 0 from by unfold evalResult; rw [he]]
  · intro r hr
    unfold MathFunction.execute
    rw [hs, ho]
    show (match ctx.get_variable out with
      | Except.error e => (Except.error e : Except String DataContext)
      | Except.ok ovar2 =>
        Except.ok (ctx.setVar out
          { ovar2 with dof_value := some (evalResult formula_eval st) })) = _
    rw [hgv]
    show Except.ok (ctx.setVar out
      { ovar with dof_value := some (evalResult formula_eval st) }) = _
    rw [show evalResult formula_eval st = r from by unfold evalResult; rw [hr]]

/-- The symbol table built over ctxX (input x: dof 50, current 50,
threshold 10). -/
def stX : SymTable :=
  [("x_dof", some 50), ("x_current", some 50), ("x_threshold", some 10), ("x", some 50)]

/-- Witness for the C9 theorem at a concrete input: an evaluator returning
3 leads to 3 being written into the output's dof value. -/
theorem c9_witness :
    ((∀ e, (fun _ : SymTable => (Except.ok (some (3 : ℚ)) : Except String (Option ℚ))) stX
          = .error e →
        MathFunction.execute (fun _ => .ok (some 3)) ["x"] ["x"] ctxX
          = .ok (ctxX.setVar "x" { varX with dof_value := some 0 }))
    ∧ ((fun _ : SymTable => (Except.ok (some (3 : ℚ)) : Except String (Option ℚ))) stX
          = .ok none →
        MathFunction.execute (fun _ => .ok (some 3)) ["x"] ["x"] ctxX
          = .ok (ctxX.setVar "x" { varX with dof_value := some 0 }))
    ∧ (∀ r, (fun _ : SymTable => (Except.ok (some (3 : ℚ)) : Except String (Option ℚ))) stX
          = .ok (some r) →
        MathFunction.execute (fun _ => .ok (some 3)) ["x"] ["x"] ctxX
          = .ok (ctxX.setVar "x" { varX with dof_value := some r }))) :=
  c9_expression_default_and_write (fun _ => .ok (some 3)) ["x"] ["x"] ctxX stX "x" [] varX
    (by rfl) rfl rfl

end ProcOpt
